import Mathlib

/-!
Verification development for the `queue` library: a bounded-concurrency task
scheduler with two engine variants (`ItemQueue` in `src/queue.item.ts` and
`FunctionQueue` in `src/queue.function.ts`, which are line-for-line identical
except for the `taskAdded` event and the body of `push`), a group overlay
(`QueueGroup` in `src/queue.group.ts`), and shared option records
(`src/common.ts`).

The TypeScript classes are shallowly embedded as Lean state records plus
executable transition functions; event emission is modelled by appending to a
trace list, and promises are modelled by allocation of numeric identifiers.
Task payloads (items / callables) are identified by natural numbers.
-/

set_option autoImplicit false

namespace Queue

/-- A JavaScript value as far as the queue's error handling observes it:
`undefined`, an `Error` object (identified by its message), or any other
value (identified by its string conversion). This is the distinction the
source draws via `typeof error !== 'undefined'` and `error instanceof Error`. -/
inductive JSVal where
  | undef : JSVal
  | errObj (msg : String) : JSVal
  | other (str : String) : JSVal
deriving DecidableEq, Repr

/-- The check `error instanceof Error` from `_afterExecuteTask`. -/
def isErrorObject : JSVal → Bool
  | JSVal.errObj _ => true
  | _ => false

/-- String conversion applied by the `Error` constructor to a non-string
argument (`new Error(error)`). -/
def jsString : JSVal → String
  | JSVal.undef => "undefined"
  | JSVal.errObj m => m
  | JSVal.other s => s

/-- Normalization in `_afterExecuteTask` (queue.item.ts:315-317): a raised or
rejected value that is not already an `Error` is wrapped via `new Error(v)`. -/
def normalizeError (e : JSVal) : JSVal :=
  if isErrorObject e then e else JSVal.errObj (jsString e)

/-- Per-task options (`TaskOptions` in `src/common.ts`). `timeout` is kept
optional because `task.options?.timeout ?? defaultTimeout` distinguishes an
absent timeout from an explicit `0`; `runImmediately` is a plain `Bool`
because only its truthiness is ever read. -/
structure TaskOptions where
  timeout : Option Nat := none
  runImmediately : Bool := false
deriving DecidableEq, Repr

/-- Queue construction options (`QueueOptions` in `src/common.ts`); every
field is optional and defaulted by the private getters of the queue class. -/
structure QueueOptions where
  autoStart : Option Bool := none
  maxConcurrentTasks : Option Nat := none
  defaultTimeout : Option Nat := none
  useAsyncTicking : Option Bool := none
deriving DecidableEq, Repr

/-- Private getter `_maxConcurrentTasks` (queue.item.ts:396-398). -/
def QueueOptions.maxConcurrentTasksD (o : QueueOptions) : Nat :=
  o.maxConcurrentTasks.getD 1

/-- Private getter `_defaultTimeout` (queue.item.ts:403-405). -/
def QueueOptions.defaultTimeoutD (o : QueueOptions) : Nat :=
  o.defaultTimeout.getD 0

/-- Private getter `_autoStart` (queue.item.ts:410-412). -/
def QueueOptions.autoStartD (o : QueueOptions) : Bool :=
  o.autoStart.getD true

/-- Private getter `_useAsyncTicking` (queue.item.ts:417-419). -/
def QueueOptions.useAsyncTickingD (o : QueueOptions) : Bool :=
  o.useAsyncTicking.getD true

/-- An internal task record (`InternalTaskRecord` in both queue sources).
`item` identifies the payload (the item, or the callable for the function
variant). `hasPromise` records whether `promiseResolve`/`promiseReject`
handles are attached (they are present together exactly when the task was
admitted via `pushAsync`). -/
structure InternalTaskRecord where
  item : Nat
  options : Option TaskOptions := none
  hasPromise : Bool := false
deriving DecidableEq, Repr

/-- The truthiness of `task.options?.runImmediately`. -/
def InternalTaskRecord.runImmediatelyFlag (t : InternalTaskRecord) : Bool :=
  (t.options.map TaskOptions.runImmediately).getD false

/-- The value of `task.options?.timeout ?? this._defaultTimeout`
(queue.item.ts:227). -/
def InternalTaskRecord.timeoutDuration (t : InternalTaskRecord)
    (opts : QueueOptions) : Nat :=
  (t.options.bind TaskOptions.timeout).getD opts.defaultTimeoutD

/-- An event on a queue's (or group's) event channel, with the payload
identified by its numeric id. `taskFinished` carries the error-or-undefined
first argument as a `JSVal` (`JSVal.undef` models `undefined`). -/
inductive QEvent where
  | taskAdded (item : Nat) : QEvent
  | taskStarted (item : Nat) : QEvent
  | taskCompleted (item : Nat) : QEvent
  | taskTimedOut (item : Nat) : QEvent
  | taskFailed (error : JSVal) (item : Nat) : QEvent
  | taskFinished (error : JSVal) (item : Nat) : QEvent
  | started : QEvent
  | stopped : QEvent
  | finished : QEvent
deriving DecidableEq, Repr

/-- How `_afterExecuteTask` settles the task's tracking promise (if any). -/
inductive FutureAction where
  | noSettle : FutureAction
  | resolveWith : FutureAction
  | rejectWith (error : JSVal) : FutureAction
deriving DecidableEq, Repr

/-- The observable effects of `_afterExecuteTask(task, timeout, error)`
(queue.item.ts:298-343, identically queue.function.ts:276-321), short of the
`_numRunningTasks` decrement and the stop-or-continue tail: the events
emitted, in order, and the settlement of the task's promise.

The `timeout` parameter is a `Nat` whose value `0` models both JS `0` and
`undefined` (the source only tests its truthiness with `if (timeout)`), and
`error = JSVal.undef` models both an absent argument and an explicit
`undefined` (the source tests `typeof error !== 'undefined'`). -/
def afterExecuteTaskEffects (task : InternalTaskRecord) (timeout : Nat)
    (error : JSVal) : List QEvent × FutureAction :=
  -- first the outcome event, tracking the in-place mutation of `error`
  let outcome : QEvent × JSVal :=
    if timeout ≠ 0 then
      (QEvent.taskTimedOut task.item, error)
    else if error ≠ JSVal.undef then
      let e := normalizeError error
      (QEvent.taskFailed e task.item, e)
    else
      (QEvent.taskCompleted task.item, error)
  -- queue.item.ts:328-330: a timeout is converted into a synthesized Error
  let error :=
    if timeout ≠ 0 then
      JSVal.errObj ("Task timed out after " ++ toString timeout ++ " milliseconds")
    else outcome.2
  let events := [outcome.1, QEvent.taskFinished error task.item]
  -- queue.item.ts:336-343: settle the tracking promise, if one was attached
  let settle :=
    if task.hasPromise && (timeout == 0 && error == JSVal.undef) then
      FutureAction.resolveWith
    else if task.hasPromise then
      FutureAction.rejectWith error
    else
      FutureAction.noSettle
  (events, settle)

/-- One of the mutually exclusive completion signals racing to finish a
dispatched task (queue.item.ts:230-271): the timeout timer firing, the
invocation completing (synchronous return or promise resolution), or the
invocation failing (synchronous throw or promise rejection). -/
inductive CompletionSignal where
  | timerFired (duration : Nat) : CompletionSignal
  | invocationCompleted : CompletionSignal
  | invocationFailed (error : JSVal) : CompletionSignal
deriving DecidableEq, Repr

/-- The `(timeout, error)` arguments each signal's callback passes to
`_afterExecuteTask`: the timer passes the timeout duration, resolution
passes nothing, rejection and a synchronous throw pass `(0, error)`. -/
def signalArgs : CompletionSignal → Nat × JSVal
  | CompletionSignal.timerFired d => (d, JSVal.undef)
  | CompletionSignal.invocationCompleted => (0, JSVal.undef)
  | CompletionSignal.invocationFailed e => (0, e)

/-- Delivery of an arbitrary arrival order of completion signals for one
dispatched task, guarded by the `isTaskFinished` flag of `_executeTask`:
each callback runs `_afterExecuteTask` only when the flag is still unset,
and sets it. Returns the number of `_afterExecuteTask` invocations (each of
which performs exactly one `_numRunningTasks` decrement), the events emitted
and the promise settlements performed, in order. -/
def deliverSignalsAux (task : InternalTaskRecord) :
    Bool → List CompletionSignal → Nat × List QEvent × List FutureAction
  | _, [] => (0, [], [])
  | true, _ :: rest => deliverSignalsAux task true rest
  | false, s :: rest =>
    let args := signalArgs s
    let eff := afterExecuteTaskEffects task args.1 args.2
    let tail := deliverSignalsAux task true rest
    (tail.1 + 1, eff.1 ++ tail.2.1, eff.2 :: tail.2.2)

/-- Signal delivery starting with the `isTaskFinished` flag unset, as at the
start of `_executeTask`. -/
def deliverSignals (task : InternalTaskRecord)
    (sigs : List CompletionSignal) : Nat × List QEvent × List FutureAction :=
  deliverSignalsAux task false sigs

/-- Insertion of a newly admitted record into the pending list
(`_enqueueTask`, queue.item.ts:194-204): a `runImmediately` record is
unshifted to the front, any other record is pushed to the back. -/
def enqueueInsert (t : InternalTaskRecord) (ts : List InternalTaskRecord) :
    List InternalTaskRecord :=
  if t.runImmediatelyFlag then t :: ts else ts ++ [t]

/-- The scheduling-relevant state of one engine instance, together with two
ghost counters (`admitted`, `finishedTasks`) and a ghost list `running` of
dispatched-but-unfinished records, which the source does not store but which
the accounting claims quantify over. `numRunningTasks` mirrors the mutable
field `_numRunningTasks`. -/
structure EngineState where
  tasks : List InternalTaskRecord := []
  numRunningTasks : Nat := 0
  active : Bool := false
  stopping : Bool := false
  running : List InternalTaskRecord := []
  admitted : Nat := 0
  finishedTasks : Nat := 0
deriving Repr

/-- The engine state produced by the constructor. -/
def initialEngineState : EngineState := {}

/-- The `length` getter (queue.item.ts:60-62, queue.function.ts:53-55):
`this._tasks.length + this._numRunningTasks`. -/
def engineLength (s : EngineState) : Nat :=
  s.tasks.length + s.numRunningTasks

/-- The atomic state transitions of one engine, as a labelled relation.
`P` restricts which task records the caller may push (instantiate it with
`fun _ => True` for unrestricted callers). Each constructor mirrors one
mutation site of the source:

* `push`: `_enqueueTask` list insertion plus the ghost admission count
  (queue.item.ts:194-204);
* `dispatch`: the single-dispatch body of `start()` (queue.item.ts:125-142)
  fused with the `_numRunningTasks++` and activation of
  `_beforeExecuteTask` (queue.item.ts:279-291) — the front record is
  removed and dispatched exactly when a slot is free or the record has
  `runImmediately` set;
* `finishTask`: the `_numRunningTasks--` of `_afterExecuteTask`
  (queue.item.ts:298-306), firing for a record whose outcome is determined,
  which the `isTaskFinished` guard restricts to in-flight records;
* `stopReq`: `stop()` (queue.item.ts:161-165);
* `finishStop`: the state cleanup of `_finishStoppingQueue`
  (queue.item.ts:364-368), reachable only under the guard of
  queue.item.ts:346. -/
inductive EngineStep (opts : QueueOptions) (P : InternalTaskRecord → Prop) :
    EngineState → EngineState → Prop where
  | push (s : EngineState) (t : InternalTaskRecord) (hP : P t) :
      EngineStep opts P s
        { s with
            tasks := enqueueInsert t s.tasks,
            admitted := s.admitted + 1 }
  | dispatch (s : EngineState) (t : InternalTaskRecord)
      (rest : List InternalTaskRecord) (hfront : s.tasks = t :: rest)
      (hok : s.numRunningTasks < opts.maxConcurrentTasksD ∨
        t.runImmediatelyFlag = true) :
      EngineStep opts P s
        { s with
            tasks := rest,
            numRunningTasks := s.numRunningTasks + 1,
            running := t :: s.running,
            active := true }
  | finishTask (s : EngineState) (t : InternalTaskRecord)
      (hmem : t ∈ s.running) :
      EngineStep opts P s
        { s with
            numRunningTasks := s.numRunningTasks - 1,
            running := s.running.erase t,
            finishedTasks := s.finishedTasks + 1 }
  | stopReq (s : EngineState) :
      EngineStep opts P s
        (if s.active then { s with stopping := true } else s)
  | finishStop (s : EngineState)
      (h : engineLength s = 0 ∨ s.stopping = true) :
      EngineStep opts P s { s with active := false, stopping := false }

/-- States reachable from the freshly constructed engine by engine steps
whose pushed records all satisfy `P`. -/
def EngineReachable (opts : QueueOptions) (P : InternalTaskRecord → Prop)
    (s : EngineState) : Prop :=
  Relation.ReflTransGen (EngineStep opts P) initialEngineState s

/-- The synchronous behaviour of one invocation of the processor (for the
item variant) or of the pushed callable (for the function variant): it
returns a non-thenable value, or it throws. Promise-returning invocations
are covered by the `CompletionSignal` race model above. -/
inductive SyncResult where
  | returns : SyncResult
  | throws (error : JSVal) : SyncResult
deriving DecidableEq, Repr

/-- The full mutable state of one engine instance for the executable model,
mirroring the private fields of the queue classes, plus the observable
outputs: the emitted event trace, the log of promise settlements, the pool
of allocated promise identifiers (`nextPromiseId`), the identifiers resolved
so far, and the one-shot `finished` listeners registered by
`getCompletionPromise`. `pendingTicks` counts `setTimeout(() => this.start(), 0)`
callbacks that have been scheduled but not yet run. -/
structure QueueState where
  tasks : List InternalTaskRecord := []
  numRunningTasks : Nat := 0
  active : Bool := false
  stopping : Bool := false
  timeouts : List InternalTaskRecord := []
  stopPromise : Option Nat := none
  stopPromiseResolver : Bool := false
  pendingTicks : Nat := 0
  trace : List QEvent := []
  futureLog : List (Nat × FutureAction) := []
  nextPromiseId : Nat := 0
  resolvedPromises : List Nat := []
  onceFinished : List Nat := []
deriving DecidableEq, Repr

/-- The state produced by either queue constructor. -/
def initialQueueState : QueueState := {}

/-- The `length` getter over the executable state (queue.item.ts:60-62). -/
def lengthQ (st : QueueState) : Nat :=
  st.tasks.length + st.numRunningTasks

/-- `_finishStoppingQueue` (queue.item.ts:364-391): reset the state flags,
discard the timeout map, capture and clear the stop resolver, emit
`finished` when the queue is empty (which also fires the one-shot
`finished` listeners registered by `getCompletionPromise`), then emit
`stopped`. -/
def finishStoppingQueue (st : QueueState) : QueueState :=
  let st := { st with active := false, stopping := false, timeouts := [] }
  let st :=
    if st.stopPromiseResolver then
      { st with stopPromiseResolver := false, stopPromise := none }
    else st
  let st :=
    if lengthQ st = 0 then
      { st with
        trace := st.trace ++ [QEvent.finished],
        resolvedPromises := st.resolvedPromises ++ st.onceFinished,
        onceFinished := [] }
    else st
  { st with trace := st.trace ++ [QEvent.stopped] }

/-- One synchronous dispatch of a record that has already been removed from
the pending list: `_beforeExecuteTask` (queue.item.ts:279-291), the timer
arming and synchronous invocation of `_executeTask` (queue.item.ts:220-272)
for a processor whose behaviour is given by `proc`, and the whole of
`_afterExecuteTask` (queue.item.ts:298-359). A synchronous invocation
settles before its timer can possibly fire, so the timer is armed and then
discarded unfired. The returned flag is true exactly when the source would
re-enter `this.start()` synchronously (queue.item.ts:356-357), which the
fuelled driver `startQ` below performs. -/
def dispatchOne (opts : QueueOptions) (proc : Nat → SyncResult)
    (t : InternalTaskRecord) (st : QueueState) : QueueState × Bool :=
  -- _beforeExecuteTask: slot accounting, activation, taskStarted
  let st := { st with numRunningTasks := st.numRunningTasks + 1 }
  let st :=
    if st.active then st
    else { st with active := true, trace := st.trace ++ [QEvent.started] }
  let st := { st with trace := st.trace ++ [QEvent.taskStarted t.item] }
  -- _executeTask: arm the timer when a positive duration applies
  let st :=
    if t.timeoutDuration opts > 0 then { st with timeouts := t :: st.timeouts }
    else st
  -- synchronous invocation: the (timeout, error) arguments it hands on
  let args : Nat × JSVal :=
    match proc t.item with
    | SyncResult.returns => (0, JSVal.undef)
    | SyncResult.throws e => (0, e)
  -- _afterExecuteTask: slot release, timer discard, events, settlement
  let st := { st with
              numRunningTasks := st.numRunningTasks - 1,
              timeouts := st.timeouts.erase t }
  let eff := afterExecuteTaskEffects t args.1 args.2
  let st := { st with
              trace := st.trace ++ eff.1,
              futureLog := st.futureLog ++ [(t.item, eff.2)] }
  -- queue.item.ts:346-358: stop the queue, or schedule/perform the next start
  if lengthQ st = 0 ∨ st.stopping then (finishStoppingQueue st, false)
  else if opts.useAsyncTickingD then
    ({ st with pendingTicks := st.pendingTicks + 1 }, false)
  else (st, true)

/-- `start()` (queue.item.ts:125-142, queue.function.ts:106-123) for
synchronous tasks: a no-op on an empty pending list; when all slots are
taken, dispatch the front record only if it has `runImmediately` set;
otherwise dispatch the front record. The fuel bounds the synchronous
re-entrancy of `_afterExecuteTask` into `start()` when async ticking is
off; it is chosen larger than any chain arising at the inputs below. -/
def startQ (opts : QueueOptions) (proc : Nat → SyncResult) :
    Nat → QueueState → QueueState
  | 0, st => st
  | Nat.succ fuel, st =>
    match st.tasks with
    | [] => st
    | t :: rest =>
      if st.numRunningTasks ≥ opts.maxConcurrentTasksD then
        if t.runImmediatelyFlag then
          let r := dispatchOne opts proc t { st with tasks := rest }
          if r.2 then startQ opts proc fuel r.1 else r.1
        else st
      else
        let r := dispatchOne opts proc t { st with tasks := rest }
        if r.2 then startQ opts proc fuel r.1 else r.1

/-- Runs the scheduled `setTimeout(() => this.start(), 0)` callbacks until
none remain, in scheduling order, the way the event loop would once the
synchronous call stack has unwound. -/
def runTicks (opts : QueueOptions) (proc : Nat → SyncResult) :
    Nat → QueueState → QueueState
  | 0, st => st
  | Nat.succ fuel, st =>
    if st.pendingTicks = 0 then st
    else
      runTicks opts proc fuel
        (startQ opts proc (Nat.succ fuel)
          { st with pendingTicks := st.pendingTicks - 1 })

/-- `_enqueueTask` (queue.item.ts:194-213, queue.function.ts:175-191):
insert the record (front for `runImmediately`, back otherwise), emit
`taskAdded` — on the item variant only (`emitTaskAdded`), the function
variant has no such channel — and run `start()` when auto-start is on. -/
def enqueueTask (opts : QueueOptions) (proc : Nat → SyncResult) (fuel : Nat)
    (emitTaskAdded : Bool) (t : InternalTaskRecord) (st : QueueState) :
    QueueState :=
  let st := { st with tasks := enqueueInsert t st.tasks }
  let st :=
    if emitTaskAdded then { st with trace := st.trace ++ [QEvent.taskAdded t.item] }
    else st
  if opts.autoStartD then startQ opts proc fuel st else st

/-- `ItemQueue.push` (queue.item.ts:97-102): build a record without promise
handles and enqueue it. The scheduling attempt happens only inside
`_enqueueTask`, gated on auto-start. -/
def ItemQueue.push (opts : QueueOptions) (proc : Nat → SyncResult)
    (fuel : Nat) (item : Nat) (taskOpts : Option TaskOptions)
    (st : QueueState) : QueueState :=
  enqueueTask opts proc fuel true { item := item, options := taskOpts } st

/-- `FunctionQueue.push` (queue.function.ts:76-83): build a record without
promise handles, enqueue it, and then call `this.start()` unconditionally,
in addition to the auto-start-gated attempt inside `_enqueueTask`. -/
def FunctionQueue.push (opts : QueueOptions) (proc : Nat → SyncResult)
    (fuel : Nat) (item : Nat) (taskOpts : Option TaskOptions)
    (st : QueueState) : QueueState :=
  startQ opts proc fuel
    (enqueueTask opts proc fuel false { item := item, options := taskOpts } st)

/-- `stop()` (queue.item.ts:161-165): request a graceful stop only while the
queue is active. -/
def stopQ (st : QueueState) : QueueState :=
  if st.active then { st with stopping := true } else st

/-- `stopAsync()` (queue.item.ts:171-186): while active, request a stop and
return the outstanding stop promise, creating it (with its resolver) only
if none exists; otherwise return a fresh, immediately resolved promise.
Returns the promise identifier together with the new state. -/
def stopAsyncQ (st : QueueState) : Nat × QueueState :=
  if st.active then
    let st := stopQ st
    match st.stopPromise with
    | some p => (p, st)
    | none =>
      (st.nextPromiseId,
        { st with
          stopPromise := some st.nextPromiseId,
          stopPromiseResolver := true,
          nextPromiseId := st.nextPromiseId + 1 })
  else
    (st.nextPromiseId,
      { st with
        nextPromiseId := st.nextPromiseId + 1,
        resolvedPromises := st.resolvedPromises ++ [st.nextPromiseId] })

/-- `startAsync()` (queue.item.ts:147-156): return the outstanding stop
promise if one exists; otherwise create one, run `start()` from inside the
promise executor, and assign `_stopPromise` only after the executor
returns. -/
def startAsyncQ (opts : QueueOptions) (proc : Nat → SyncResult) (fuel : Nat)
    (st : QueueState) : Nat × QueueState :=
  match st.stopPromise with
  | some p => (p, st)
  | none =>
    let p := st.nextPromiseId
    let st := startQ opts proc fuel
      { st with stopPromiseResolver := true, nextPromiseId := p + 1 }
    (p, { st with stopPromise := some p })

/-- `getCompletionPromise()` (queue.item.ts:81-89): an immediately resolved
promise when `length` is `0`, otherwise a promise whose resolver is
registered as a one-shot listener on the `finished` channel. -/
def getCompletionPromiseQ (st : QueueState) : Nat × QueueState :=
  if lengthQ st = 0 then
    (st.nextPromiseId,
      { st with
        nextPromiseId := st.nextPromiseId + 1,
        resolvedPromises := st.resolvedPromises ++ [st.nextPromiseId] })
  else
    (st.nextPromiseId,
      { st with
        nextPromiseId := st.nextPromiseId + 1,
        onceFinished := st.onceFinished ++ [st.nextPromiseId] })

/-- The state of one `QueueGroup` (src/queue.group.ts): the `_active` flag,
the two payload-identity sets (`Set<T>` under value identity, modelled as
`Finset Nat` so that `add` absorbs duplicates exactly like a JS `Set`), the
group's own emitted trace, and the completion-promise bookkeeping of its
`getCompletionPromise`. -/
structure GroupState where
  active : Bool := true
  pendingTasks : Finset Nat := ∅
  activeTasks : Finset Nat := ∅
  trace : List QEvent := []
  nextPromiseId : Nat := 0
  resolvedPromises : List Nat := []
  onceFinished : List Nat := []
deriving DecidableEq

/-- The group state produced by the constructor. -/
def initialGroupState : GroupState := {}

/-- The `length` getter of the group (queue.group.ts:42-44):
`this._pendingTasks.size + this._activeTasks.size`. -/
def groupLength (g : GroupState) : Nat :=
  g.pendingTasks.card + g.activeTasks.card

/-- The group's `taskStarted` listener (queue.group.ts:95-101): when the
payload identity is in the pending set, move it to the active set and
re-emit; otherwise drop the event silently. -/
def onTaskStarted (item : Nat) (g : GroupState) : GroupState :=
  if item ∈ g.pendingTasks then
    { g with
      pendingTasks := g.pendingTasks.erase item,
      activeTasks := insert item g.activeTasks,
      trace := g.trace ++ [QEvent.taskStarted item] }
  else g

/-- The group's `taskCompleted` listener (queue.group.ts:103-107): re-emit
only for identities in the active set. -/
def onTaskCompleted (item : Nat) (g : GroupState) : GroupState :=
  if item ∈ g.activeTasks then
    { g with trace := g.trace ++ [QEvent.taskCompleted item] }
  else g

/-- The group's `taskFailed` listener (queue.group.ts:109-113). -/
def onTaskFailed (error : JSVal) (item : Nat) (g : GroupState) : GroupState :=
  if item ∈ g.activeTasks then
    { g with trace := g.trace ++ [QEvent.taskFailed error item] }
  else g

/-- The group's `taskTimedOut` listener (queue.group.ts:115-119). -/
def onTaskTimedOut (item : Nat) (g : GroupState) : GroupState :=
  if item ∈ g.activeTasks then
    { g with trace := g.trace ++ [QEvent.taskTimedOut item] }
  else g

/-- The group's `taskFinished` listener (queue.group.ts:121-130): for an
identity in the active set, remove it, re-emit `taskFinished`, and when the
group's own `length` has thereby reached zero, emit the group's `finished`
(which also fires the one-shot listeners of `getCompletionPromise`). -/
def onTaskFinished (error : JSVal) (item : Nat) (g : GroupState) :
    GroupState :=
  if item ∈ g.activeTasks then
    let g := { g with
               activeTasks := g.activeTasks.erase item,
               trace := g.trace ++ [QEvent.taskFinished error item] }
    if groupLength g = 0 then
      { g with
        trace := g.trace ++ [QEvent.finished],
        resolvedPromises := g.resolvedPromises ++ g.onceFinished,
        onceFinished := [] }
    else g
  else g

/-- `QueueGroup.destroy` (queue.group.ts:49-52): detach the listeners and
clear the `_active` flag. Detachment itself is visible only through the
listeners no longer being invoked. -/
def destroyGroup (g : GroupState) : GroupState :=
  { g with active := false }

/-- `QueueGroup.push` (queue.group.ts:60-63): record the payload identity in
the pending set, then delegate to the parent engine's `push`. The re-entry
of engine events into the group listeners is modelled separately by the
`on…` handlers above; with auto-start disabled, admission emits only
`taskAdded`, to which the group does not subscribe, so this composition is
exact for that configuration. -/
def QueueGroup.push (opts : QueueOptions) (proc : Nat → SyncResult)
    (fuel : Nat) (item : Nat) (taskOpts : Option TaskOptions)
    (g : GroupState) (q : QueueState) : GroupState × QueueState :=
  ({ g with pendingTasks := insert item g.pendingTasks },
    ItemQueue.push opts proc fuel item taskOpts q)

/-- `QueueGroup.getCompletionPromise` (queue.group.ts:81-89): an immediately
resolved promise when the group's `length` is `0`, otherwise a promise
whose resolver is registered once on the group's own `finished` channel. -/
def QueueGroup.getCompletionPromise (g : GroupState) : Nat × GroupState :=
  if groupLength g = 0 then
    (g.nextPromiseId,
      { g with
        nextPromiseId := g.nextPromiseId + 1,
        resolvedPromises := g.resolvedPromises ++ [g.nextPromiseId] })
  else
    (g.nextPromiseId,
      { g with
        nextPromiseId := g.nextPromiseId + 1,
        onceFinished := g.onceFinished ++ [g.nextPromiseId] })

/-- A processor (or callable) whose every invocation returns synchronously
with success. -/
def syncSuccessProc : Nat → SyncResult := fun _ => SyncResult.returns

/-- A task record pushed with `{ runImmediately: true }` and no promise. -/
def immediateTask : InternalTaskRecord :=
  { item := 0, options := some { runImmediately := true } }

/-- A task record pushed with no options. -/
def plainTask : InternalTaskRecord := { item := 5 }

/-- A queue constructed with `{ maxConcurrentTasks: 1 }`. -/
def optsOne : QueueOptions := { maxConcurrentTasks := some 1 }

/-- A queue constructed with `{ autoStart: false }`. -/
def optsNoAuto : QueueOptions := { autoStart := some false }

/-- The engine state after `push(A); push(B); push(C)` of three synchronous
success tasks (items 0, 1, 2) on an item queue with default options. -/
def threeSyncPushesDefault : QueueState :=
  ItemQueue.push {} syncSuccessProc 9 2 none
    (ItemQueue.push {} syncSuccessProc 9 1 none
      (ItemQueue.push {} syncSuccessProc 9 0 none initialQueueState))

/-- The engine state after `push(A); push(B); push(C); start()` with
`autoStart: false` and then draining the scheduled ticks. -/
def threeSyncPushesGated : QueueState :=
  runTicks optsNoAuto syncSuccessProc 9
    (startQ optsNoAuto syncSuccessProc 9
      (ItemQueue.push optsNoAuto syncSuccessProc 9 2 none
        (ItemQueue.push optsNoAuto syncSuccessProc 9 1 none
          (ItemQueue.push optsNoAuto syncSuccessProc 9 0 none
            initialQueueState))))

/-- The event order claimed by the specification's scenario for three
synchronous success pushes. -/
def claimedThreePushTrace : List QEvent :=
  [QEvent.taskAdded 0, QEvent.taskAdded 1, QEvent.taskAdded 2,
   QEvent.started,
   QEvent.taskStarted 0, QEvent.taskCompleted 0,
   QEvent.taskFinished JSVal.undef 0,
   QEvent.taskStarted 1, QEvent.taskCompleted 1,
   QEvent.taskFinished JSVal.undef 1,
   QEvent.taskStarted 2, QEvent.taskCompleted 2,
   QEvent.taskFinished JSVal.undef 2,
   QEvent.finished, QEvent.stopped]

/-- The event order the engine actually produces with default options: each
push of a synchronous task runs it to completion, so each push yields a
full `started` … `stopped` cycle of its own. -/
def perPushCycleTrace : List QEvent :=
  [QEvent.taskAdded 0, QEvent.started,
   QEvent.taskStarted 0, QEvent.taskCompleted 0,
   QEvent.taskFinished JSVal.undef 0,
   QEvent.finished, QEvent.stopped,
   QEvent.taskAdded 1, QEvent.started,
   QEvent.taskStarted 1, QEvent.taskCompleted 1,
   QEvent.taskFinished JSVal.undef 1,
   QEvent.finished, QEvent.stopped,
   QEvent.taskAdded 2, QEvent.started,
   QEvent.taskStarted 2, QEvent.taskCompleted 2,
   QEvent.taskFinished JSVal.undef 2,
   QEvent.finished, QEvent.stopped]

/-- An active queue with no outstanding stop promise. -/
def activeQueueState : QueueState := { active := true }

/-! ## Supporting lemmas -/

/-- Inserting an admitted record grows the pending list by exactly one,
whether it goes to the front or to the back. -/
theorem enqueueInsert_length (t : InternalTaskRecord)
    (ts : List InternalTaskRecord) :
    (enqueueInsert t ts).length = ts.length + 1 := by
  unfold enqueueInsert
  split <;> simp

/-- Once the `isTaskFinished` flag is set, every further completion signal
for the task is ignored. -/
theorem deliverSignalsAux_flag_set (task : InternalTaskRecord)
    (sigs : List CompletionSignal) :
    deliverSignalsAux task true sigs = (0, [], []) := by
  induction sigs with
  | nil => rfl
  | cons s rest ih => simpa [deliverSignalsAux] using ih

/-- Normalization always yields an `Error` object. -/
theorem normalizeError_isErrorObject (e : JSVal) :
    isErrorObject (normalizeError e) = true := by
  cases e <;> simp [normalizeError, isErrorObject]

/-- The shape of `_afterExecuteTask`'s effects, for any arguments: exactly
one outcome event followed by exactly one `taskFinished` carrying the final
error value, and a promise settlement that resolves exactly on the
completed outcome and otherwise rejects with that error value. -/
theorem afterExecuteTaskEffects_spec (task : InternalTaskRecord)
    (timeout : Nat) (e : JSVal) :
    ∃ out finErr,
      afterExecuteTaskEffects task timeout e =
        ([out, QEvent.taskFinished finErr task.item],
          if task.hasPromise then
            (if out = QEvent.taskCompleted task.item then
              FutureAction.resolveWith
            else FutureAction.rejectWith finErr)
          else FutureAction.noSettle) ∧
      (out = QEvent.taskCompleted task.item ∨
        (∃ e2, out = QEvent.taskFailed e2 task.item) ∨
        out = QEvent.taskTimedOut task.item) := by
  by_cases ht : timeout = 0
  · by_cases he : e = JSVal.undef
    · refine ⟨QEvent.taskCompleted task.item, JSVal.undef, ?_, Or.inl rfl⟩
      subst ht he
      cases hp : task.hasPromise <;>
        simp [afterExecuteTaskEffects, hp]
    · refine ⟨QEvent.taskFailed (normalizeError e) task.item, normalizeError e,
        ?_, Or.inr (Or.inl ⟨normalizeError e, rfl⟩)⟩
      subst ht
      have hne : normalizeError e ≠ JSVal.undef := by
        intro hcon
        have := normalizeError_isErrorObject e
        rw [hcon] at this
        simp [isErrorObject] at this
      cases hp : task.hasPromise <;>
        simp [afterExecuteTaskEffects, hp, he, hne]
  · refine ⟨QEvent.taskTimedOut task.item,
      JSVal.errObj ("Task timed out after " ++ toString timeout ++ " milliseconds"),
      ?_, Or.inr (Or.inr rfl)⟩
    cases hp : task.hasPromise <;>
      simp [afterExecuteTaskEffects, hp, ht]

/-! ## Claim theorems -/

/-- C2: for every dispatched task, whatever nonempty sequence of completion
signals arrives — including both a timer firing and the invocation's own
completion — the `isTaskFinished` guard lets exactly the first signal
through: `_afterExecuteTask` runs exactly once (so `_numRunningTasks` is
decremented exactly once), exactly one of `taskCompleted` / `taskFailed` /
`taskTimedOut` is emitted followed by exactly one `taskFinished`, and the
task's promise, when one was requested via `pushAsync`, resolves exactly on
the completed outcome and otherwise rejects with the final error value. -/
theorem task_outcome_exactly_once (task : InternalTaskRecord)
    (sigs : List CompletionSignal) (h : sigs ≠ []) :
    ∃ s rest out finErr,
      sigs = s :: rest ∧
      deliverSignals task sigs =
        (1, [out, QEvent.taskFinished finErr task.item],
          [if task.hasPromise then
            (if out = QEvent.taskCompleted task.item then
              FutureAction.resolveWith
            else FutureAction.rejectWith finErr)
          else FutureAction.noSettle]) ∧
      (out = QEvent.taskCompleted task.item ∨
        (∃ e2, out = QEvent.taskFailed e2 task.item) ∨
        out = QEvent.taskTimedOut task.item) := by
  cases sigs with
  | nil => exact absurd rfl h
  | cons s rest =>
    obtain ⟨out, finErr, heq, hout⟩ :=
      afterExecuteTaskEffects_spec task (signalArgs s).1 (signalArgs s).2
    refine ⟨s, rest, out, finErr, rfl, ?_, hout⟩
    simp [deliverSignals, deliverSignalsAux, deliverSignalsAux_flag_set,
      heq]

/-- Witness for C2 at a concrete input: a task with a promise whose
invocation completes and whose timer nevertheless also fires afterwards. -/
theorem task_outcome_exactly_once_witness :
    ([CompletionSignal.invocationCompleted, CompletionSignal.timerFired 50] ≠
      ([] : List CompletionSignal)) ∧
    (∃ s rest out finErr,
      [CompletionSignal.invocationCompleted, CompletionSignal.timerFired 50] =
        s :: rest ∧
      deliverSignals { item := 7, hasPromise := true }
          [CompletionSignal.invocationCompleted,
            CompletionSignal.timerFired 50] =
        (1, [out, QEvent.taskFinished finErr 7],
          [if (true : Bool) then
            (if out = QEvent.taskCompleted 7 then FutureAction.resolveWith
            else FutureAction.rejectWith finErr)
          else FutureAction.noSettle]) ∧
      (out = QEvent.taskCompleted 7 ∨
        (∃ e2, out = QEvent.taskFailed e2 7) ∨
        out = QEvent.taskTimedOut 7)) :=
  ⟨by decide,
    task_outcome_exactly_once { item := 7, hasPromise := true }
      [CompletionSignal.invocationCompleted, CompletionSignal.timerFired 50]
      (by decide)⟩

/-- C5 (amended): for every raised or rejected value other than
`undefined`, the outcome is failure — the value is normalized into an
`Error` object (carried as-is when it already is one), `taskFailed` is
emitted with that error, `taskFinished` carries it, and the task's promise,
if any, rejects with it. -/
theorem invocation_failure_normalized (task : InternalTaskRecord)
    (e : JSVal) (h : e ≠ JSVal.undef) :
    afterExecuteTaskEffects task 0 e =
      ([QEvent.taskFailed (normalizeError e) task.item,
        QEvent.taskFinished (normalizeError e) task.item],
        if task.hasPromise then FutureAction.rejectWith (normalizeError e)
        else FutureAction.noSettle) ∧
    isErrorObject (normalizeError e) = true ∧
    (isErrorObject e = true → normalizeError e = e) := by
  have hne : normalizeError e ≠ JSVal.undef := by
    intro hcon
    have := normalizeError_isErrorObject e
    rw [hcon] at this
    simp [isErrorObject] at this
  refine ⟨?_, normalizeError_isErrorObject e, ?_⟩
  · cases hp : task.hasPromise <;>
      simp [afterExecuteTaskEffects, hp, h, hne]
  · intro hobj
    simp [normalizeError, hobj]

/-- Witness for C5's amended theorem: a task with a promise whose
invocation raises the non-`Error` value `"boom"`. -/
theorem invocation_failure_normalized_witness :
    (JSVal.other "boom" ≠ JSVal.undef) ∧
    (afterExecuteTaskEffects { item := 3, hasPromise := true } 0
        (JSVal.other "boom") =
      ([QEvent.taskFailed (normalizeError (JSVal.other "boom")) 3,
        QEvent.taskFinished (normalizeError (JSVal.other "boom")) 3],
        if (true : Bool) then
          FutureAction.rejectWith (normalizeError (JSVal.other "boom"))
        else FutureAction.noSettle) ∧
      isErrorObject (normalizeError (JSVal.other "boom")) = true ∧
      (isErrorObject (JSVal.other "boom") = true →
        normalizeError (JSVal.other "boom") = JSVal.other "boom")) :=
  ⟨by decide,
    invocation_failure_normalized { item := 3, hasPromise := true }
      (JSVal.other "boom") (by decide)⟩

/-- Counterexample to C5 as stated: an invocation that raises (or whose
deferred result rejects with) the value `undefined` is treated as a
success — `taskCompleted` is emitted, `taskFinished` carries `undefined`,
and the task's promise resolves instead of rejecting. -/
theorem invocation_failure_counterexample :
    afterExecuteTaskEffects { item := 0, hasPromise := true } 0 JSVal.undef =
      ([QEvent.taskCompleted 0, QEvent.taskFinished JSVal.undef 0],
        FutureAction.resolveWith) ∧
    (afterExecuteTaskEffects { item := 0, hasPromise := true } 0
        JSVal.undef).2 ≠
      FutureAction.rejectWith (normalizeError JSVal.undef) := by
  constructor
  · rfl
  · decide

/-- C1 (amended): a single engine step can take `runningCount` above the
configured `maxConcurrentTasks` cap only by dispatching the record at the
front of the pending list while that record has `runImmediately` set and
all slots are already taken; each such bypass adds exactly one running
task. (Repeated bypass dispatches stack, so `runningCount <= k + 1` is not
an invariant — see the counterexample.) -/
theorem runningCount_exceeds_cap_only_by_bypass (opts : QueueOptions)
    (P : InternalTaskRecord → Prop) (s s2 : EngineState)
    (hstep : EngineStep opts P s s2)
    (hover : opts.maxConcurrentTasksD < s2.numRunningTasks)
    (hinc : s.numRunningTasks < s2.numRunningTasks) :
    ∃ t rest, s.tasks = t :: rest ∧ t.runImmediatelyFlag = true ∧
      opts.maxConcurrentTasksD ≤ s.numRunningTasks ∧
      s2.numRunningTasks = s.numRunningTasks + 1 := by
  cases hstep with
  | push t hP => simp at hinc
  | dispatch t rest hfront hok =>
    have hle : opts.maxConcurrentTasksD ≤ s.numRunningTasks := by
      simp at hover
      omega
    refine ⟨t, rest, hfront, ?_, hle, rfl⟩
    rcases hok with hlt | himm
    · exact absurd hle (by omega)
    · exact himm
  | finishTask t hmem =>
    simp at hinc
    exact absurd hinc (by omega)
  | stopReq =>
    by_cases ha : s.active <;> simp [ha] at hinc
  | finishStop h => simp at hinc

/-- Witness for C1's amended theorem: with `maxConcurrentTasks = 1`, one
slot taken and an immediate record at the front, the bypass dispatch is the
step that exceeds the cap. -/
theorem runningCount_exceeds_cap_only_by_bypass_witness :
    (optsOne.maxConcurrentTasksD <
      ({ tasks := [],
         numRunningTasks := 2,
         running := [immediateTask, immediateTask],
         active := true,
         admitted := 2 : EngineState }).numRunningTasks) ∧
    (∃ t rest,
      ({ tasks := [immediateTask],
         numRunningTasks := 1,
         running := [immediateTask],
         active := true,
         admitted := 2 : EngineState }).tasks = t :: rest ∧
      t.runImmediatelyFlag = true ∧
      optsOne.maxConcurrentTasksD ≤ 1 ∧
      (2 : Nat) = 1 + 1) :=
  ⟨by decide,
    runningCount_exceeds_cap_only_by_bypass optsOne (fun _ => True)
      { tasks := [immediateTask],
        numRunningTasks := 1,
        running := [immediateTask],
        active := true,
        admitted := 2 }
      { tasks := [],
        numRunningTasks := 2,
        running := [immediateTask, immediateTask],
        active := true,
        admitted := 2 }
      (EngineStep.dispatch _ immediateTask [] rfl (Or.inr rfl))
      (by decide) (by decide)⟩

/-- Counterexample to C1 as stated: pushing three never-settling
`runImmediately` tasks onto an auto-starting engine with
`maxConcurrentTasks = 1` reaches `runningCount = 3 > k + 1 = 2` — each
push's scheduling attempt bypasses the cap again, so a single
`runImmediately` task being the `(k+1)`-th is not the worst case. -/
theorem runningCount_bound_counterexample :
    ∃ s : EngineState,
      EngineReachable optsOne (fun _ => True) s ∧
      optsOne.maxConcurrentTasksD + 1 < s.numRunningTasks := by
  have h1 : EngineReachable optsOne (fun _ => True)
      { tasks := [immediateTask], admitted := 1 } :=
    Relation.ReflTransGen.single
      (EngineStep.push initialEngineState immediateTask trivial)
  have h2 : EngineReachable optsOne (fun _ => True)
      { tasks := [],
        numRunningTasks := 1,
        running := [immediateTask],
        active := true,
        admitted := 1 } :=
    h1.tail (EngineStep.dispatch _ immediateTask [] rfl (Or.inr rfl))
  have h3 : EngineReachable optsOne (fun _ => True)
      { tasks := [immediateTask],
        numRunningTasks := 1,
        running := [immediateTask],
        active := true,
        admitted := 2 } :=
    h2.tail (EngineStep.push _ immediateTask trivial)
  have h4 : EngineReachable optsOne (fun _ => True)
      { tasks := [],
        numRunningTasks := 2,
        running := [immediateTask, immediateTask],
        active := true,
        admitted := 2 } :=
    h3.tail (EngineStep.dispatch _ immediateTask [] rfl (Or.inr rfl))
  have h5 : EngineReachable optsOne (fun _ => True)
      { tasks := [immediateTask],
        numRunningTasks := 2,
        running := [immediateTask, immediateTask],
        active := true,
        admitted := 3 } :=
    h4.tail (EngineStep.push _ immediateTask trivial)
  have h6 : EngineReachable optsOne (fun _ => True)
      { tasks := [],
        numRunningTasks := 3,
        running := [immediateTask, immediateTask, immediateTask],
        active := true,
        admitted := 3 } :=
    h5.tail (EngineStep.dispatch _ immediateTask [] rfl (Or.inr rfl))
  exact ⟨_, h6, by decide⟩

/-- Complementary bound (not itself one of the frozen claims): along runs
that never push a `runImmediately` record, `runningCount` never exceeds the
configured cap. -/
theorem runningCount_bounded_without_runImmediately (opts : QueueOptions)
    (s : EngineState)
    (h : EngineReachable opts
      (fun t => t.runImmediatelyFlag = false) s) :
    s.numRunningTasks ≤ opts.maxConcurrentTasksD ∧
    ∀ t ∈ s.tasks, t.runImmediatelyFlag = false := by
  induction h with
  | refl => exact ⟨Nat.zero_le _, by simp [initialEngineState]⟩
  | tail hreach hstep ih =>
    obtain ⟨ih1, ih2⟩ := ih
    rename_i sMid sNew
    cases hstep with
    | push t hP =>
      refine ⟨ih1, ?_⟩
      intro u hu
      simp only [enqueueInsert, hP, Bool.false_eq_true, if_false] at hu
      rcases List.mem_append.mp hu with hu | hu
      · exact ih2 u hu
      · rw [List.mem_singleton.mp hu]
        exact hP
    | dispatch t rest hfront hok =>
      constructor
      · rcases hok with hlt | himm
        · exact hlt
        · have hfalse := ih2 t (by rw [hfront]; exact List.mem_cons_self t rest)
          rw [hfalse] at himm
          cases himm
      · intro u hu
        exact ih2 u (by rw [hfront]; exact List.mem_cons_of_mem t hu)
    | finishTask t hmem =>
      exact ⟨le_trans (Nat.sub_le _ _) ih1, ih2⟩
    | stopReq =>
      split <;> exact ⟨ih1, ih2⟩
    | finishStop hstop => exact ⟨ih1, ih2⟩

/-- C3: at every reachable engine state, the exposed `length` getter equals
the size of the pending list plus `runningCount`, `runningCount` equals the
number of dispatched-but-unfinished records, and pending plus running
together account for exactly the records admitted whose outcome has not yet
been determined — every engine step preserves this. -/
theorem length_counts_admitted_unfinished (opts : QueueOptions)
    (P : InternalTaskRecord → Prop) (s : EngineState)
    (h : EngineReachable opts P s) :
    engineLength s = s.tasks.length + s.numRunningTasks ∧
    s.numRunningTasks = s.running.length ∧
    engineLength s + s.finishedTasks = s.admitted := by
  induction h with
  | refl => exact ⟨rfl, rfl, rfl⟩
  | tail hreach hstep ih =>
    obtain ⟨-, ih2, ih3⟩ := ih
    rename_i sMid sNew
    cases hstep with
    | push t hP =>
      refine ⟨rfl, ih2, ?_⟩
      simp only [engineLength] at ih3 ⊢
      simp only [enqueueInsert_length]
      omega
    | dispatch t rest hfront hok =>
      refine ⟨rfl, by simp [ih2], ?_⟩
      simp only [engineLength] at ih3 ⊢
      have : sMid.tasks.length = rest.length + 1 := by
        rw [hfront]
        simp
      omega
    | finishTask t hmem =>
      have hpos : 0 < sMid.running.length := List.length_pos.mpr
        (List.ne_nil_of_mem hmem)
      have herase : (sMid.running.erase t).length =
          sMid.running.length - 1 := List.length_erase_of_mem hmem
      refine ⟨rfl, ?_, ?_⟩
      · simp only [herase]
        omega
      · simp only [engineLength] at ih3 ⊢
        omega
    | stopReq =>
      split <;> exact ⟨rfl, ih2, ih3⟩
    | finishStop hstop => exact ⟨rfl, ih2, ih3⟩

/-- Witness for C3 at a concrete reachable state: one plain record admitted
and then dispatched. -/
theorem length_counts_admitted_unfinished_witness :
    EngineReachable optsOne (fun _ => True)
      { tasks := [],
        numRunningTasks := 1,
        running := [plainTask],
        active := true,
        admitted := 1 } ∧
    (engineLength
        { tasks := [],
          numRunningTasks := 1,
          running := [plainTask],
          active := true,
          admitted := 1 } =
      ([] : List InternalTaskRecord).length + 1 ∧
      (1 : Nat) = [plainTask].length ∧
      engineLength
        { tasks := [],
          numRunningTasks := 1,
          running := [plainTask],
          active := true,
          admitted := 1 } + 0 = 1) :=
  have hreach : EngineReachable optsOne (fun _ => True)
      { tasks := [],
        numRunningTasks := 1,
        running := [plainTask],
        active := true,
        admitted := 1 } :=
    Relation.ReflTransGen.tail
      (Relation.ReflTransGen.single
        (EngineStep.push initialEngineState plainTask trivial))
      (EngineStep.dispatch _ plainTask [] rfl (Or.inl (by decide)))
  ⟨hreach,
    length_counts_admitted_unfinished optsOne (fun _ => True) _ hreach⟩

/-- C4 (amended): with default options each push of a synchronous success
task runs it to completion before `push` returns, so pushing A, B, C yields
three complete `taskAdded, started, taskStarted, taskCompleted,
taskFinished, finished, stopped` cycles; the single-cycle order the
specification's scenario lists is produced when the three tasks are pushed
with `autoStart: false` and `start()` is then called once. -/
theorem three_sync_pushes_trace :
    threeSyncPushesDefault.trace = perPushCycleTrace ∧
    threeSyncPushesGated.trace = claimedThreePushTrace := by
  constructor
  · rfl
  · rfl

/-- Counterexample to C4 as stated: with default options the engine does
not produce the claimed single-cycle event sequence for three synchronous
pushes — each push runs its task to completion synchronously, emitting
`finished` and `stopped` before the next `taskAdded`. -/
theorem three_sync_pushes_trace_counterexample :
    threeSyncPushesDefault.trace ≠ claimedThreePushTrace ∧
    threeSyncPushesDefault.trace = perPushCycleTrace := by
  constructor
  · decide
  · rfl

/-- C6: while the engine is active, a second `stopAsync` (or a
`startAsync`) issued after a `stopAsync` returns the very same outstanding
stop promise rather than a fresh one, and `stop()` is idempotent on the
engine state. -/
theorem stopAsync_idempotent (opts : QueueOptions) (proc : Nat → SyncResult)
    (fuel : Nat) (st : QueueState) (h : st.active = true) :
    (stopAsyncQ (stopAsyncQ st).2).1 = (stopAsyncQ st).1 ∧
    (startAsyncQ opts proc fuel (stopAsyncQ st).2).1 = (stopAsyncQ st).1 ∧
    stopQ (stopQ st) = stopQ st := by
  rcases hsp : st.stopPromise with _ | p <;>
    simp [stopAsyncQ, stopQ, startAsyncQ, h, hsp]

/-- Witness for C6 at a concrete input: a freshly active queue. -/
theorem stopAsync_idempotent_witness :
    activeQueueState.active = true ∧
    ((stopAsyncQ (stopAsyncQ activeQueueState).2).1 =
        (stopAsyncQ activeQueueState).1 ∧
      (startAsyncQ optsOne syncSuccessProc 3
          (stopAsyncQ activeQueueState).2).1 =
        (stopAsyncQ activeQueueState).1 ∧
      stopQ (stopQ activeQueueState) = stopQ activeQueueState) :=
  ⟨rfl,
    stopAsync_idempotent optsOne syncSuccessProc 3 activeQueueState rfl⟩

/-- C8: the callable-routed engine's `push` calls `this.start()`
unconditionally after admission, in addition to the auto-start-gated
attempt inside `_enqueueTask`, while the item-routed engine's `push` only
triggers via that gate — so with `autoStart: false` a pushed callable is
dispatched immediately while a pushed item stays pending (only `taskAdded`
is emitted) until `start()` is called. -/
theorem push_scheduling_asymmetry (opts : QueueOptions)
    (proc : Nat → SyncResult) (fuel item : Nat)
    (taskOpts : Option TaskOptions) (st : QueueState)
    (h : opts.autoStartD = false) :
    FunctionQueue.push opts proc fuel item taskOpts st =
      startQ opts proc fuel
        { st with
            tasks := enqueueInsert { item := item, options := taskOpts }
              st.tasks } ∧
    ItemQueue.push opts proc fuel item taskOpts st =
      { st with
          tasks := enqueueInsert { item := item, options := taskOpts }
            st.tasks,
          trace := st.trace ++ [QEvent.taskAdded item] } ∧
    (FunctionQueue.push optsNoAuto syncSuccessProc 3 0 none
        initialQueueState).trace =
      [QEvent.started, QEvent.taskStarted 0, QEvent.taskCompleted 0,
        QEvent.taskFinished JSVal.undef 0, QEvent.finished,
        QEvent.stopped] ∧
    (ItemQueue.push optsNoAuto syncSuccessProc 3 0 none
        initialQueueState).trace = [QEvent.taskAdded 0] ∧
    (ItemQueue.push optsNoAuto syncSuccessProc 3 0 none
        initialQueueState).numRunningTasks = 0 := by
  refine ⟨?_, ?_, rfl, rfl, rfl⟩
  · simp [FunctionQueue.push, enqueueTask, h]
  · simp [ItemQueue.push, enqueueTask, h]

/-- Witness for C8 at a concrete input: `autoStart: false`, one task with
no options pushed onto a fresh queue of each variant. -/
theorem push_scheduling_asymmetry_witness :
    optsNoAuto.autoStartD = false ∧
    (FunctionQueue.push optsNoAuto syncSuccessProc 3 0 none
        initialQueueState =
      startQ optsNoAuto syncSuccessProc 3
        { initialQueueState with
            tasks := enqueueInsert { item := 0, options := none }
              initialQueueState.tasks } ∧
      ItemQueue.push optsNoAuto syncSuccessProc 3 0 none
          initialQueueState =
        { initialQueueState with
            tasks := enqueueInsert { item := 0, options := none }
              initialQueueState.tasks,
            trace := initialQueueState.trace ++ [QEvent.taskAdded 0] } ∧
      (FunctionQueue.push optsNoAuto syncSuccessProc 3 0 none
          initialQueueState).trace =
        [QEvent.started, QEvent.taskStarted 0, QEvent.taskCompleted 0,
          QEvent.taskFinished JSVal.undef 0, QEvent.finished,
          QEvent.stopped] ∧
      (ItemQueue.push optsNoAuto syncSuccessProc 3 0 none
          initialQueueState).trace = [QEvent.taskAdded 0] ∧
      (ItemQueue.push optsNoAuto syncSuccessProc 3 0 none
          initialQueueState).numRunningTasks = 0) :=
  ⟨rfl,
    push_scheduling_asymmetry optsNoAuto syncSuccessProc 3 0 none
      initialQueueState rfl⟩

/-- C9: `getCompletionPromise` on an engine or group whose `length` is `0`
at call time returns a promise that is resolved in the same call, touching
no event channel; on a nonzero `length` it only registers a one-shot
`finished` listener, and that promise is resolved by the next `finished`
emission — of `_finishStoppingQueue` on an empty engine, or of the group's
`taskFinished` listener when the group's `length` reaches zero. -/
theorem completion_promise_immediate_or_on_finished (st : QueueState)
    (g : GroupState) :
    (lengthQ st = 0 →
      getCompletionPromiseQ st =
        (st.nextPromiseId,
          { st with
              nextPromiseId := st.nextPromiseId + 1,
              resolvedPromises :=
                st.resolvedPromises ++ [st.nextPromiseId] })) ∧
    (lengthQ st ≠ 0 →
      getCompletionPromiseQ st =
        (st.nextPromiseId,
          { st with
              nextPromiseId := st.nextPromiseId + 1,
              onceFinished := st.onceFinished ++ [st.nextPromiseId] })) ∧
    (∀ st2 : QueueState, (getCompletionPromiseQ st).1 ∈ st2.onceFinished →
      lengthQ st2 = 0 →
      (getCompletionPromiseQ st).1 ∈
        (finishStoppingQueue st2).resolvedPromises) ∧
    (groupLength g = 0 →
      QueueGroup.getCompletionPromise g =
        (g.nextPromiseId,
          { g with
              nextPromiseId := g.nextPromiseId + 1,
              resolvedPromises :=
                g.resolvedPromises ++ [g.nextPromiseId] })) ∧
    (groupLength g ≠ 0 →
      QueueGroup.getCompletionPromise g =
        (g.nextPromiseId,
          { g with
              nextPromiseId := g.nextPromiseId + 1,
              onceFinished := g.onceFinished ++ [g.nextPromiseId] })) ∧
    (∀ (g2 : GroupState) (e : JSVal) (item : Nat),
      (QueueGroup.getCompletionPromise g).1 ∈ g2.onceFinished →
      item ∈ g2.activeTasks →
      g2.pendingTasks.card + (g2.activeTasks.erase item).card = 0 →
      (QueueGroup.getCompletionPromise g).1 ∈
        (onTaskFinished e item g2).resolvedPromises) := by
  refine ⟨?_, ?_, ?_, ?_, ?_, ?_⟩
  · intro h
    simp [getCompletionPromiseQ, h]
  · intro h
    simp [getCompletionPromiseQ, h]
  · intro st2 hmem hlen
    simp only [lengthQ] at hlen
    by_cases hr : st2.stopPromiseResolver <;>
      simp [finishStoppingQueue, lengthQ, hr, hlen, List.mem_append,
        hmem]
  · intro h
    simp [QueueGroup.getCompletionPromise, h]
  · intro h
    simp [QueueGroup.getCompletionPromise, h]
  · intro g2 e item hmem hact hzero
    have h1 : g2.pendingTasks = ∅ := by
      rw [← Finset.card_eq_zero]
      omega
    have h2 : g2.activeTasks.card - 1 = 0 := by
      rw [← Finset.card_erase_of_mem hact]
      omega
    simp [onTaskFinished, hact, groupLength, h1, h2, List.mem_append, hmem]

/-- Witness for C9 at concrete inputs: a fresh engine and group (length 0,
already-resolved promise), an engine with one pending task and a group with
one pending identity (listener registered), and concrete empty-at-finish
states whose `finished` emission resolves the registered promise. -/
theorem completion_promise_witness :
    (lengthQ initialQueueState = 0 ∧
      getCompletionPromiseQ initialQueueState =
        (initialQueueState.nextPromiseId,
          { initialQueueState with
              nextPromiseId := initialQueueState.nextPromiseId + 1,
              resolvedPromises :=
                initialQueueState.resolvedPromises ++
                  [initialQueueState.nextPromiseId] })) ∧
    (lengthQ { tasks := [plainTask] } ≠ 0 ∧
      getCompletionPromiseQ { tasks := [plainTask] } =
        (({ tasks := [plainTask] } : QueueState).nextPromiseId,
          { ({ tasks := [plainTask] } : QueueState) with
              nextPromiseId :=
                ({ tasks := [plainTask] } : QueueState).nextPromiseId + 1,
              onceFinished :=
                ({ tasks := [plainTask] } : QueueState).onceFinished ++
                  [({ tasks := [plainTask] } : QueueState).nextPromiseId] })) ∧
    ((getCompletionPromiseQ initialQueueState).1 ∈
        ({ onceFinished := [0] } : QueueState).onceFinished ∧
      lengthQ { onceFinished := [0] } = 0 ∧
      (getCompletionPromiseQ initialQueueState).1 ∈
        (finishStoppingQueue { onceFinished := [0] }).resolvedPromises) ∧
    (groupLength initialGroupState = 0 ∧
      QueueGroup.getCompletionPromise initialGroupState =
        (initialGroupState.nextPromiseId,
          { initialGroupState with
              nextPromiseId := initialGroupState.nextPromiseId + 1,
              resolvedPromises :=
                initialGroupState.resolvedPromises ++
                  [initialGroupState.nextPromiseId] })) ∧
    ((QueueGroup.getCompletionPromise initialGroupState).1 ∈
        ({ activeTasks := {7}, onceFinished := [0] } : GroupState).onceFinished ∧
      (7 : Nat) ∈ ({ activeTasks := {7}, onceFinished := [0] } : GroupState).activeTasks ∧
      (QueueGroup.getCompletionPromise initialGroupState).1 ∈
        (onTaskFinished JSVal.undef 7
          { activeTasks := {7}, onceFinished := [0] }).resolvedPromises) :=
  ⟨⟨rfl,
      (completion_promise_immediate_or_on_finished initialQueueState
        initialGroupState).1 rfl⟩,
    ⟨by decide,
      (completion_promise_immediate_or_on_finished { tasks := [plainTask] }
        initialGroupState).2.1 (by decide)⟩,
    ⟨by decide, rfl,
      (completion_promise_immediate_or_on_finished initialQueueState
        initialGroupState).2.2.1 { onceFinished := [0] } (by decide) rfl⟩,
    ⟨rfl,
      (completion_promise_immediate_or_on_finished initialQueueState
        initialGroupState).2.2.2.1 rfl⟩,
    ⟨by decide, by decide,
      (completion_promise_immediate_or_on_finished initialQueueState
        initialGroupState).2.2.2.2.2
        { activeTasks := {7}, onceFinished := [0] } JSVal.undef 7
        (by decide) (by decide) (by decide)⟩⟩

/-- C7: a group re-emits an engine event only for payload identities it
admitted: on `taskStarted`, an identity in the pending set moves to the
active set and the event is re-emitted, while other identities are dropped
with the group state untouched; on `taskFinished` for an identity in the
active set, the identity is removed, `taskFinished` is re-emitted, and the
group's own `finished` follows exactly when the group's `length` has
reached zero. -/
theorem group_event_filtering (g : GroupState) (e : JSVal) (item : Nat) :
    (item ∈ g.pendingTasks →
      onTaskStarted item g =
        { g with
            pendingTasks := g.pendingTasks.erase item,
            activeTasks := insert item g.activeTasks,
            trace := g.trace ++ [QEvent.taskStarted item] }) ∧
    (item ∉ g.pendingTasks → onTaskStarted item g = g) ∧
    (item ∉ g.activeTasks → onTaskFinished e item g = g) ∧
    (item ∈ g.activeTasks →
      (onTaskFinished e item g).pendingTasks = g.pendingTasks ∧
      (onTaskFinished e item g).activeTasks = g.activeTasks.erase item ∧
      (onTaskFinished e item g).trace =
        g.trace ++ [QEvent.taskFinished e item] ++
          (if g.pendingTasks.card + (g.activeTasks.erase item).card = 0
            then [QEvent.finished]
            else []) ∧
      (groupLength (onTaskFinished e item g) = 0 ↔
        g.pendingTasks.card + (g.activeTasks.erase item).card = 0)) := by
  refine ⟨?_, ?_, ?_, ?_⟩
  · intro h
    simp [onTaskStarted, h]
  · intro h
    simp [onTaskStarted, h]
  · intro h
    simp [onTaskFinished, h]
  · intro h
    by_cases hz :
        g.pendingTasks.card + (g.activeTasks.erase item).card = 0
    · have h1 : g.pendingTasks = ∅ := by
        rw [← Finset.card_eq_zero]
        omega
      have h2 : g.activeTasks.card - 1 = 0 := by
        rw [← Finset.card_erase_of_mem h]
        omega
      simp [onTaskFinished, h, groupLength, hz, h1, h2]
    · have h2 : ¬(g.pendingTasks = ∅ ∧ g.activeTasks.card - 1 = 0) := by
        intro hcon
        obtain ⟨hc1, hc2⟩ := hcon
        apply hz
        have h3 : g.pendingTasks.card = 0 := by
          rw [hc1]
          simp
        have h4 : (g.activeTasks.erase item).card =
            g.activeTasks.card - 1 := Finset.card_erase_of_mem h
        omega
      simp [onTaskFinished, h, groupLength, hz, h2]

/-- Witness for C7 at a concrete input: a group with pending identity 3 and
active identity 4, receiving `taskStarted 3` and `taskFinished` for 4. -/
theorem group_event_filtering_witness :
    ((3 : Nat) ∈
        ({ pendingTasks := {3}, activeTasks := {4} } : GroupState).pendingTasks ∧
      onTaskStarted 3 { pendingTasks := {3}, activeTasks := {4} } =
        { ({ pendingTasks := {3}, activeTasks := {4} } : GroupState) with
            pendingTasks :=
              ({ pendingTasks := {3}, activeTasks := {4} } :
                GroupState).pendingTasks.erase 3,
            activeTasks :=
              insert 3
                ({ pendingTasks := {3}, activeTasks := {4} } :
                  GroupState).activeTasks,
            trace :=
              ({ pendingTasks := {3}, activeTasks := {4} } :
                GroupState).trace ++ [QEvent.taskStarted 3] }) ∧
    ((4 : Nat) ∈
        ({ pendingTasks := {3}, activeTasks := {4} } : GroupState).activeTasks ∧
      (onTaskFinished JSVal.undef 4
          { pendingTasks := {3}, activeTasks := {4} }).pendingTasks =
        ({ pendingTasks := {3}, activeTasks := {4} } :
          GroupState).pendingTasks ∧
      (onTaskFinished JSVal.undef 4
          { pendingTasks := {3}, activeTasks := {4} }).activeTasks =
        ({ pendingTasks := {3}, activeTasks := {4} } :
          GroupState).activeTasks.erase 4) :=
  have hthm := group_event_filtering
    { pendingTasks := {3}, activeTasks := {4} } JSVal.undef 3
  have hthm4 := group_event_filtering
    { pendingTasks := {3}, activeTasks := {4} } JSVal.undef 4
  ⟨⟨by decide, hthm.1 (by decide)⟩,
    ⟨by decide,
      (hthm4.2.2.2 (by decide)).1,
      (hthm4.2.2.2 (by decide)).2.1⟩⟩

/-- C10: because the group tracks its tasks in `Set`s keyed by the payload
value, pushing the same value twice through one group (with no intervening
engine events, e.g. `autoStart: false`) grows the group's `length` by only
1 — the second `Set.add` is absorbed — while the parent engine's `length`
grows by 2. -/
theorem group_undercounts_duplicate_pushes (opts : QueueOptions)
    (proc : Nat → SyncResult) (fuel : Nat) (taskOpts : Option TaskOptions)
    (x : Nat) (g : GroupState) (q : QueueState)
    (hauto : opts.autoStartD = false) (hx : x ∉ g.pendingTasks) :
    groupLength
        (QueueGroup.push opts proc fuel x taskOpts
          (QueueGroup.push opts proc fuel x taskOpts g q).1
          (QueueGroup.push opts proc fuel x taskOpts g q).2).1 =
      groupLength g + 1 ∧
    lengthQ
        (QueueGroup.push opts proc fuel x taskOpts
          (QueueGroup.push opts proc fuel x taskOpts g q).1
          (QueueGroup.push opts proc fuel x taskOpts g q).2).2 =
      lengthQ q + 2 := by
  constructor
  · simp [QueueGroup.push, groupLength, Finset.insert_idem,
      Finset.card_insert_of_not_mem hx]
    omega
  · simp [QueueGroup.push, ItemQueue.push, enqueueTask, hauto, lengthQ,
      enqueueInsert_length]
    omega

/-- Witness for C10 at a concrete input: value 3 pushed twice through a
fresh group over a fresh `autoStart: false` engine. -/
theorem group_undercounts_duplicate_pushes_witness :
    optsNoAuto.autoStartD = false ∧
    (3 : Nat) ∉ initialGroupState.pendingTasks ∧
    (groupLength
        (QueueGroup.push optsNoAuto syncSuccessProc 3 3 none
          (QueueGroup.push optsNoAuto syncSuccessProc 3 3 none
            initialGroupState initialQueueState).1
          (QueueGroup.push optsNoAuto syncSuccessProc 3 3 none
            initialGroupState initialQueueState).2).1 =
      groupLength initialGroupState + 1 ∧
    lengthQ
        (QueueGroup.push optsNoAuto syncSuccessProc 3 3 none
          (QueueGroup.push optsNoAuto syncSuccessProc 3 3 none
            initialGroupState initialQueueState).1
          (QueueGroup.push optsNoAuto syncSuccessProc 3 3 none
            initialGroupState initialQueueState).2).2 =
      lengthQ initialQueueState + 2) :=
  ⟨rfl, by decide,
    group_undercounts_duplicate_pushes optsNoAuto syncSuccessProc 3 none 3
      initialGroupState initialQueueState rfl (by decide)⟩

end Queue
